import Mathlib

/-!
Verification of the QCoDeS/Reports repository: a shallow embedding of the
utility code of the benchmark notebooks (the `time_it` decorator, the
incremental-resize writers `save_to_hdf5` / `save_to_npy`, the data
generator `make_data_producer`, the timing loops, handle lifecycles and the
report-folder layout), with theorems settling the specification claims.
-/

namespace Reports

/-- One tuple `(s1_val, s2_val, magn_vals, phas_vals)` yielded by the
measurement-data generator in the sqlite-comparison notebook. -/
structure MeasRecord where
  s1 : ℚ
  s2 : ℚ
  magn : List ℚ
  phas : List ℚ
deriving DecidableEq

/-- A 2-D numeric array in C (row-major) order: entry `(i, j)` lives at flat
buffer index `i * cols + j`.  This models both an `h5py` dataset and a numpy
`ndarray` buffer; the buffer is total, positions outside `rows * cols` are
irrelevant. -/
structure NArray where
  rows : Nat
  cols : Nat
  dat : Nat → ℚ

/-- Read entry `(i, j)` through the flat C-order layout. -/
def NArray.get (a : NArray) (i j : Nat) : ℚ := a.dat (i * a.cols + j)

/-- `h5py`'s `Dataset.resize`: the dataset keeps every element at its logical
2-D position; positions that did not exist before read as the fill value 0
(the default fill value of the float dataset created by `create_dataset`). -/
def h5pyResize (a : NArray) (s : Nat × Nat) : NArray :=
  ⟨s.1, s.2, fun k =>
    if k / s.2 < a.rows ∧ k % s.2 < a.cols then a.get (k / s.2) (k % s.2) else 0⟩

/-- `numpy.ndarray.resize`: the flat C-order buffer is kept as it is,
truncated or zero-extended to the new total size; logical 2-D positions are
not preserved when the second dimension changes. -/
def ndarrayResize (a : NArray) (s : Nat × Nat) : NArray :=
  ⟨s.1, s.2, fun k => if k < a.rows * a.cols ∧ k < s.1 * s.2 then a.dat k else 0⟩

/-- Slice assignment `a[r, start : start + vals.length] = vals` acting on the
flat C-order buffer. -/
def NArray.setSlice (a : NArray) (r start : Nat) (vals : List ℚ) : NArray :=
  ⟨a.rows, a.cols, fun k =>
    if r * a.cols + start ≤ k ∧ k < r * a.cols + start + vals.length then
      vals.getD (k - (r * a.cols + start)) 0
    else a.dat k⟩

/-- One iteration of the data-generator loop shared by `save_to_hdf5` and
`save_to_npy`: read the current shape, resize to make room for
`n_pts = len(magn_vals)` new points, then assign the four row slices
(`s1_val` and `s2_val` broadcast over the slice).  The final slice assignment
raises a numpy broadcast `ValueError` when `phas_vals` does not have `n_pts`
elements. -/
def saveStep (resize : NArray → Nat × Nat → NArray) (st : NArray) (r : MeasRecord) :
    Except String NArray :=
  let nPts := r.magn.length
  let a1 := resize st (st.rows, st.cols + nPts)
  let a2 := a1.setSlice 0 st.cols (List.replicate nPts r.s1)
  let a3 := a2.setSlice 1 st.cols (List.replicate nPts r.s2)
  let a4 := a3.setSlice 2 st.cols r.magn
  if r.phas.length = nPts then Except.ok (a4.setSlice 3 st.cols r.phas)
  else Except.error "ValueError: could not broadcast phas_vals"

/-- The `for ... in data_generator` loop of the two writers, propagating any
exception of the body. -/
def saveLoop (resize : NArray → Nat × Nat → NArray) :
    NArray → List MeasRecord → Except String NArray
  | st, [] => Except.ok st
  | st, r :: rest =>
    match saveStep resize st r with
    | Except.error e => Except.error e
    | Except.ok st' => saveLoop resize st' rest

/-- The freshly created destination: `create_dataset('results', shape=(4, 0),
maxshape=(4, None))`, and likewise `open_memmap(..., shape=(4, 0))`. -/
def emptyDS : NArray := ⟨4, 0, fun _ => 0⟩

/-- The Python return value of a save routine: `None` when the body has no
`return` statement, or the pair `(saving_time, dataset)` that
`save_to_sqlite` returns. -/
inductive SaveReturn where
  | noneVal : SaveReturn
  | timeAndDataset : ℚ → List MeasRecord → SaveReturn
deriving DecidableEq

/-- `save_to_hdf5`: run the generator loop against the h5py dataset inside
`with h5py.File(filename, 'w')`; the function body has no `return`
statement, so it returns `None` alongside the stored dataset. -/
def save_to_hdf5 (data : List MeasRecord) : Except String (NArray × SaveReturn) :=
  match saveLoop h5pyResize emptyDS data with
  | Except.error e => Except.error e
  | Except.ok a => Except.ok (a, SaveReturn.noneVal)

/-- The handle `npy_mm` as seen by the body of `save_to_npy`: the array it
designates and whether it still is the file-backed memmap returned by
`open_memmap`. -/
structure MemmapHandle where
  arr : NArray
  fileBacked : Bool

/-- `numpy.lib.format.open_memmap(filename, mode='w+', shape=(4, 0))`:
creates the `.npy` file holding an empty `4 × 0` array and returns a
file-backed handle to it.  The first component is the file content. -/
def openMemmap : NArray × MemmapHandle := (emptyDS, ⟨emptyDS, true⟩)

/-- `npy_mm = numpy.require(npy_mm, requirements=['OWNDATA'])`: a memmap does
not own its data, so numpy returns an in-memory copy; rebinding `npy_mm`
drops the memmap, whose file is closed with no further write reaching it. -/
def requireOwnData (file : NArray) (h : MemmapHandle) : NArray × MemmapHandle :=
  if h.fileBacked then (file, ⟨h.arr, false⟩) else (file, h)

/-- The generator loop of `save_to_npy`, threading the `.npy` file content
alongside the handle: a write reaches the file only while the handle is the
file-backed memmap. -/
def npyLoop : NArray → MemmapHandle → List MeasRecord → Except String (NArray × MemmapHandle)
  | file, h, [] => Except.ok (file, h)
  | file, h, r :: rest =>
    match saveStep ndarrayResize h.arr r with
    | Except.error e => Except.error e
    | Except.ok a => npyLoop (if h.fileBacked then a else file) ⟨a, h.fileBacked⟩ rest

/-- `del npy_mm` at the end of `save_to_npy`: closing a file-backed memmap
flushes its buffer to the file; deleting a plain in-memory array does not
touch the file. -/
def delHandle (file : NArray) (h : MemmapHandle) : NArray :=
  if h.fileBacked then h.arr else file

/-- Outcome of a completed `save_to_npy` call: the final `.npy` file content,
the final in-memory array the loop grew, and the Python return value. -/
structure NpyOutcome where
  fileArr : NArray
  memArr : NArray
  ret : SaveReturn

/-- `save_to_npy`: open the memmap, replace it by the `OWNDATA` copy, run the
generator loop, `del` the handle; the body has no `return` statement. -/
def save_to_npy (data : List MeasRecord) : Except String NpyOutcome :=
  let fh0 := openMemmap
  let fh1 := requireOwnData fh0.1 fh0.2
  match npyLoop fh1.1 fh1.2 data with
  | Except.error e => Except.error e
  | Except.ok fh => Except.ok ⟨delHandle fh.1 fh.2, fh.2.arr, SaveReturn.noneVal⟩

/-- `save_to_sqlite` models: the dataset receives exactly the results added by
`datasaver.add_result`, one per generated tuple, and the function returns the
pair `(saving_time, dataset)` where `saving_time = t1 - t0` is the difference
of the two `perf_counter` readings around the loop. -/
def save_to_sqlite (data : List MeasRecord) (t0 t1 : ℚ) : SaveReturn :=
  SaveReturn.timeAndDataset (t1 - t0) data

/-- Row 0 of the layout the writers are meant to store: `s1_val` repeated over
the `len(magn_vals)` points of each tuple, in generator order. -/
def col0Spec (data : List MeasRecord) : List ℚ :=
  data.flatMap fun r => List.replicate r.magn.length r.s1

/-- Row 1 of the intended layout: the repeated `s2_val`. -/
def col1Spec (data : List MeasRecord) : List ℚ :=
  data.flatMap fun r => List.replicate r.magn.length r.s2

/-- Row 2 of the intended layout: the concatenated `magn_vals`. -/
def col2Spec (data : List MeasRecord) : List ℚ := data.flatMap fun r => r.magn

/-- Row 3 of the intended layout: the concatenated `phas_vals`. -/
def col3Spec (data : List MeasRecord) : List ℚ := data.flatMap fun r => r.phas

/-- Total number of points appended per column over a run. -/
def totalPts (data : List MeasRecord) : Nat := (data.map fun r => r.magn.length).sum

/-- Every tuple has `phas_vals` of the same length as `magn_vals` (otherwise
the writers raise a broadcast error). -/
def goodLens (data : List MeasRecord) : Prop := ∀ r ∈ data, r.phas.length = r.magn.length

/-- A flat index `i * cols + j` with `j < cols` falls into the slice of row
`w` starting at `start` exactly when `i = w` and `j` lies in the slice. -/
theorem slice_index_iff (cols start len i j w : Nat) (hj : j < cols)
    (hfit : start + len ≤ cols) :
    (w * cols + start ≤ i * cols + j ∧ i * cols + j < w * cols + start + len)
      ↔ (i = w ∧ start ≤ j ∧ j < start + len) := by
  constructor
  · rintro ⟨h1, h2⟩
    have hiw : i = w := by
      rcases lt_trichotomy i w with h | h | h
      · exfalso
        have : i * cols + cols ≤ w * cols := by
          simpa [Nat.succ_mul] using Nat.mul_le_mul_right cols (Nat.succ_le_of_lt h)
        omega
      · exact h
      · exfalso
        have : w * cols + cols ≤ i * cols := by
          simpa [Nat.succ_mul] using Nat.mul_le_mul_right cols (Nat.succ_le_of_lt h)
        omega
    subst hiw
    omega
  · rintro ⟨hiw, h1, h2⟩
    subst hiw
    omega

/-- Pointwise effect of a slice assignment, read within the column bound. -/
theorem NArray.get_setSlice (a : NArray) (w start : Nat) (vals : List ℚ)
    (i j : Nat) (hj : j < a.cols) (hfit : start + vals.length ≤ a.cols) :
    (a.setSlice w start vals).get i j =
      if i = w ∧ start ≤ j ∧ j < start + vals.length then vals.getD (j - start) 0
      else a.get i j := by
  have hcond := slice_index_iff a.cols start vals.length i j w hj hfit
  unfold NArray.get NArray.setSlice
  dsimp only
  by_cases hc : i = w ∧ start ≤ j ∧ j < start + vals.length
  · have hk := hcond.mpr hc
    rw [if_pos hc, if_pos hk]
    obtain ⟨hiw, -, -⟩ := hc
    subst hiw
    congr 1
    omega
  · rw [if_neg hc, if_neg (fun h => hc (hcond.mp h))]

theorem NArray.setSlice_rows (a : NArray) (w start : Nat) (vals : List ℚ) :
    (a.setSlice w start vals).rows = a.rows := rfl

theorem NArray.setSlice_cols (a : NArray) (w start : Nat) (vals : List ℚ) :
    (a.setSlice w start vals).cols = a.cols := rfl

/-- Pointwise effect of an h5py resize, read within the new column bound:
positions that existed before keep their value, new positions read 0. -/
theorem get_h5pyResize (a : NArray) (s : Nat × Nat) (i j : Nat) (hj : j < s.2) :
    (h5pyResize a s).get i j = if i < a.rows ∧ j < a.cols then a.get i j else 0 := by
  have hs : 0 < s.2 := Nat.pos_of_ne_zero (by omega)
  have hdiv : (i * s.2 + j) / s.2 = i := by
    rw [Nat.add_comm, Nat.add_mul_div_right _ _ hs, Nat.div_eq_of_lt hj]
    omega
  have hmod : (i * s.2 + j) % s.2 = j := by
    rw [Nat.mul_comm i s.2, Nat.mul_add_mod, Nat.mod_eq_of_lt hj]
  conv_lhs => unfold NArray.get h5pyResize
  dsimp only
  rw [hdiv, hmod]

theorem h5pyResize_rows (a : NArray) (s : Nat × Nat) : (h5pyResize a s).rows = s.1 := rfl

theorem h5pyResize_cols (a : NArray) (s : Nat × Nat) : (h5pyResize a s).cols = s.2 := rfl

theorem ndarrayResize_rows (a : NArray) (s : Nat × Nat) : (ndarrayResize a s).rows = s.1 := rfl

theorem ndarrayResize_cols (a : NArray) (s : Nat × Nat) : (ndarrayResize a s).cols = s.2 := rfl

/-- Reading inside a replicated list returns the replicated element. -/
theorem getD_replicate_of_lt (m j : Nat) (x : ℚ) (h : j < m) :
    (List.replicate m x).getD j 0 = x := by
  rw [List.getD_eq_getElem _ _ (by simpa using h)]
  simp

/-- A slice assignment does not change entries outside the written slice. -/
theorem NArray.get_setSlice_out (a : NArray) (w start : Nat) (vals : List ℚ)
    (i j : Nat) (hj : j < a.cols) (hfit : start + vals.length ≤ a.cols)
    (hout : j < start ∨ i ≠ w ∨ start + vals.length ≤ j) :
    (a.setSlice w start vals).get i j = a.get i j := by
  rw [NArray.get_setSlice a w start vals i j hj hfit, if_neg]
  rintro ⟨h1, h2, h3⟩
  rcases hout with h | h | h
  · omega
  · exact h h1
  · omega

/-- A slice assignment writes the supplied values inside the slice. -/
theorem NArray.get_setSlice_in (a : NArray) (w start : Nat) (vals : List ℚ)
    (j : Nat) (hfit : start + vals.length ≤ a.cols) (hin : j < vals.length) :
    (a.setSlice w start vals).get w (start + j) = vals.getD j 0 := by
  rw [NArray.get_setSlice a w start vals w (start + j) (by omega) hfit,
    if_pos ⟨rfl, by omega, by omega⟩]
  congr 1
  omega

/-- One saving iteration succeeds exactly on tuples whose `phas_vals` has
`n_pts` elements; the first dimension is preserved and the second grows by
`n_pts`, for any resize realising the requested shape. -/
theorem saveStep_ok_shape (resize : NArray → Nat × Nat → NArray)
    (hres : ∀ a s, (resize a s).rows = s.1 ∧ (resize a s).cols = s.2)
    (st : NArray) (r : MeasRecord) (hlen : r.phas.length = r.magn.length) :
    ∃ a, saveStep resize st r = Except.ok a ∧
      a.rows = st.rows ∧ a.cols = st.cols + r.magn.length := by
  refine ⟨_, by unfold saveStep; rw [if_pos hlen], ?_, ?_⟩
  · show (resize st (st.rows, st.cols + r.magn.length)).rows = st.rows
    exact (hres st _).1
  · show (resize st (st.rows, st.cols + r.magn.length)).cols = st.cols + r.magn.length
    exact (hres st _).2

/-- `totalPts` adds up along the list. -/
theorem totalPts_cons (r : MeasRecord) (rest : List MeasRecord) :
    totalPts (r :: rest) = r.magn.length + totalPts rest := by
  simp [totalPts]

/-- Over a whole run, the second dimension grows from `st.cols` by the total
number of generated points, and the run succeeds when all tuples have
matching `magn`/`phas` lengths. -/
theorem saveLoop_ok_shape (resize : NArray → Nat × Nat → NArray)
    (hres : ∀ a s, (resize a s).rows = s.1 ∧ (resize a s).cols = s.2)
    (data : List MeasRecord) :
    ∀ st : NArray, goodLens data →
      ∃ a, saveLoop resize st data = Except.ok a ∧
        a.rows = st.rows ∧ a.cols = st.cols + totalPts data := by
  induction data with
  | nil => exact fun st _ => ⟨st, rfl, rfl, by simp [totalPts]⟩
  | cons r rest ih =>
    intro st hg
    obtain ⟨a1, h1, hr1, hc1⟩ :=
      saveStep_ok_shape resize hres st r (hg r (List.mem_cons_self r rest))
    obtain ⟨a2, h2, hr2, hc2⟩ := ih a1 (fun x hx => hg x (List.mem_cons_of_mem r hx))
    refine ⟨a2, ?_, ?_, ?_⟩
    · show saveLoop resize st (r :: rest) = Except.ok a2
      rw [saveLoop, h1]
      exact h2
    · rw [hr2, hr1]
    · rw [hc2, hc1, totalPts_cons]
      omega

/-- One `save_to_hdf5` iteration, pointwise: values at already existing
positions are preserved, and the four freshly appended slices hold the
broadcast `s1_val`, the broadcast `s2_val`, `magn_vals` and `phas_vals`. -/
theorem saveStep_h5py_get (st : NArray) (r : MeasRecord) (hrows : st.rows = 4)
    (hlen : r.phas.length = r.magn.length) :
    ∃ a, saveStep h5pyResize st r = Except.ok a ∧ a.rows = 4 ∧
      a.cols = st.cols + r.magn.length ∧
      (∀ i j, i < 4 → j < st.cols → a.get i j = st.get i j) ∧
      (∀ j, j < r.magn.length →
        a.get 0 (st.cols + j) = r.s1 ∧ a.get 1 (st.cols + j) = r.s2 ∧
        a.get 2 (st.cols + j) = r.magn.getD j 0 ∧
        a.get 3 (st.cols + j) = r.phas.getD j 0) := by
  refine ⟨_, by unfold saveStep; rw [if_pos hlen], rfl.trans (by exact hrows), rfl, ?_, ?_⟩
  · -- preservation of the already existing region
    intro i j hi hj
    have hjc : j < st.cols + r.magn.length := by omega
    rw [NArray.get_setSlice_out _ 3 st.cols r.phas i j
      (by simp only [NArray.setSlice_cols, h5pyResize_cols]; omega)
      (by simp only [NArray.setSlice_cols, h5pyResize_cols]; omega) (Or.inl hj)]
    rw [NArray.get_setSlice_out _ 2 st.cols r.magn i j
      (by simp only [NArray.setSlice_cols, h5pyResize_cols]; omega)
      (by simp only [NArray.setSlice_cols, h5pyResize_cols]; omega) (Or.inl hj)]
    rw [NArray.get_setSlice_out _ 1 st.cols (List.replicate r.magn.length r.s2) i j
      (by simp only [NArray.setSlice_cols, h5pyResize_cols]; omega)
      (by simp only [NArray.setSlice_cols, h5pyResize_cols, List.length_replicate]; omega)
      (Or.inl hj)]
    rw [NArray.get_setSlice_out _ 0 st.cols (List.replicate r.magn.length r.s1) i j
      (by simp only [h5pyResize_cols]; omega)
      (by simp only [h5pyResize_cols, List.length_replicate]; omega) (Or.inl hj)]
    rw [get_h5pyResize st _ i j hjc, if_pos ⟨by omega, hj⟩]
  · -- the freshly appended region
    intro j hjm
    refine ⟨?_, ?_, ?_, ?_⟩
    · rw [NArray.get_setSlice_out _ 3 st.cols r.phas 0 (st.cols + j)
        (by simp only [NArray.setSlice_cols, h5pyResize_cols]; omega)
        (by simp only [NArray.setSlice_cols, h5pyResize_cols]; omega)
        (Or.inr (Or.inl (by omega)))]
      rw [NArray.get_setSlice_out _ 2 st.cols r.magn 0 (st.cols + j)
        (by simp only [NArray.setSlice_cols, h5pyResize_cols]; omega)
        (by simp only [NArray.setSlice_cols, h5pyResize_cols]; omega)
        (Or.inr (Or.inl (by omega)))]
      rw [NArray.get_setSlice_out _ 1 st.cols (List.replicate r.magn.length r.s2) 0
        (st.cols + j)
        (by simp only [NArray.setSlice_cols, h5pyResize_cols]; omega)
        (by simp only [NArray.setSlice_cols, h5pyResize_cols, List.length_replicate]; omega)
        (Or.inr (Or.inl (by omega)))]
      rw [NArray.get_setSlice_in _ 0 st.cols (List.replicate r.magn.length r.s1) j
        (by simp only [h5pyResize_cols, List.length_replicate]; omega)
        (by simpa using hjm)]
      exact getD_replicate_of_lt _ _ _ hjm
    · rw [NArray.get_setSlice_out _ 3 st.cols r.phas 1 (st.cols + j)
        (by simp only [NArray.setSlice_cols, h5pyResize_cols]; omega)
        (by simp only [NArray.setSlice_cols, h5pyResize_cols]; omega)
        (Or.inr (Or.inl (by omega)))]
      rw [NArray.get_setSlice_out _ 2 st.cols r.magn 1 (st.cols + j)
        (by simp only [NArray.setSlice_cols, h5pyResize_cols]; omega)
        (by simp only [NArray.setSlice_cols, h5pyResize_cols]; omega)
        (Or.inr (Or.inl (by omega)))]
      rw [NArray.get_setSlice_in _ 1 st.cols (List.replicate r.magn.length r.s2) j
        (by simp only [NArray.setSlice_cols, h5pyResize_cols, List.length_replicate]; omega)
        (by simpa using hjm)]
      exact getD_replicate_of_lt _ _ _ hjm
    · rw [NArray.get_setSlice_out _ 3 st.cols r.phas 2 (st.cols + j)
        (by simp only [NArray.setSlice_cols, h5pyResize_cols]; omega)
        (by simp only [NArray.setSlice_cols, h5pyResize_cols]; omega)
        (Or.inr (Or.inl (by omega)))]
      rw [NArray.get_setSlice_in _ 2 st.cols r.magn j
        (by simp only [NArray.setSlice_cols, h5pyResize_cols]; omega) hjm]
    · rw [NArray.get_setSlice_in _ 3 st.cols r.phas j
        (by simp only [NArray.setSlice_cols, h5pyResize_cols]; omega) (by omega)]

/-- Reading an append below the first part's length. -/
theorem getD_append_lt (l1 l2 : List ℚ) (j : Nat) (h : j < l1.length) :
    (l1 ++ l2).getD j 0 = l1.getD j 0 := by
  rw [List.getD_eq_getElem _ 0 (by simp; omega), List.getD_eq_getElem _ 0 h]
  exact List.getElem_append_left h

/-- Reading an append at an offset past the first part. -/
theorem getD_append_add (l1 l2 : List ℚ) (j : Nat) :
    (l1 ++ l2).getD (l1.length + j) 0 = l2.getD j 0 := by
  rcases Nat.lt_or_ge j l2.length with h | h
  · rw [List.getD_eq_getElem _ 0 (by simp; omega), List.getD_eq_getElem _ 0 h]
    rw [List.getElem_append_right (by omega)]
    congr 1
    omega
  · rw [List.getD_eq_default _ 0 (by simp; omega), List.getD_eq_default _ 0 h]

theorem col0Spec_cons (r : MeasRecord) (rest : List MeasRecord) :
    col0Spec (r :: rest) = List.replicate r.magn.length r.s1 ++ col0Spec rest := by
  simp [col0Spec]

theorem col1Spec_cons (r : MeasRecord) (rest : List MeasRecord) :
    col1Spec (r :: rest) = List.replicate r.magn.length r.s2 ++ col1Spec rest := by
  simp [col1Spec]

theorem col2Spec_cons (r : MeasRecord) (rest : List MeasRecord) :
    col2Spec (r :: rest) = r.magn ++ col2Spec rest := by
  simp [col2Spec]

theorem col3Spec_cons (r : MeasRecord) (rest : List MeasRecord) :
    col3Spec (r :: rest) = r.phas ++ col3Spec rest := by
  simp [col3Spec]

/-- Full pointwise characterisation of a `save_to_hdf5` run started from any
4-row dataset: the run succeeds, the pre-existing region is untouched, and
the appended region holds the four intended columns. -/
theorem saveLoop_h5py_get (data : List MeasRecord) :
    ∀ st : NArray, goodLens data → st.rows = 4 →
      ∃ a, saveLoop h5pyResize st data = Except.ok a ∧ a.rows = 4 ∧
        a.cols = st.cols + totalPts data ∧
        (∀ i j, i < 4 → j < st.cols → a.get i j = st.get i j) ∧
        (∀ j, j < totalPts data →
          a.get 0 (st.cols + j) = (col0Spec data).getD j 0 ∧
          a.get 1 (st.cols + j) = (col1Spec data).getD j 0 ∧
          a.get 2 (st.cols + j) = (col2Spec data).getD j 0 ∧
          a.get 3 (st.cols + j) = (col3Spec data).getD j 0) := by
  induction data with
  | nil =>
    intro st _ h4
    exact ⟨st, rfl, h4, by simp [totalPts], fun i j _ _ => rfl,
      fun j hj => absurd hj (by simp [totalPts])⟩
  | cons r rest ih =>
    intro st hg h4
    have hlen := hg r (List.mem_cons_self r rest)
    obtain ⟨a1, h1, hr1, hc1, hpres1, hnew1⟩ := saveStep_h5py_get st r h4 hlen
    obtain ⟨a2, h2, hr2, hc2, hpres2, hnew2⟩ :=
      ih a1 (fun x hx => hg x (List.mem_cons_of_mem r hx)) hr1
    refine ⟨a2, ?_, hr2, ?_, ?_, ?_⟩
    · show saveLoop h5pyResize st (r :: rest) = Except.ok a2
      rw [saveLoop, h1]
      exact h2
    · rw [hc2, hc1, totalPts_cons]
      omega
    · intro i j hi hj
      rw [hpres2 i j hi (by omega), hpres1 i j hi hj]
    · intro j hj
      rw [totalPts_cons] at hj
      rcases Nat.lt_or_ge j r.magn.length with hlt | hge
      · -- a point of the block appended for `r`, untouched by the rest of the run
        have hja1 : st.cols + j < a1.cols := by omega
        obtain ⟨e0, e1, e2, e3⟩ := hnew1 j hlt
        rw [hpres2 0 _ (by omega) hja1, hpres2 1 _ (by omega) hja1,
          hpres2 2 _ (by omega) hja1, hpres2 3 _ (by omega) hja1,
          e0, e1, e2, e3, col0Spec_cons, col1Spec_cons, col2Spec_cons, col3Spec_cons]
        refine ⟨?_, ?_, ?_, ?_⟩
        · rw [getD_append_lt _ _ j (by simpa using hlt), getD_replicate_of_lt _ _ _ hlt]
        · rw [getD_append_lt _ _ j (by simpa using hlt), getD_replicate_of_lt _ _ _ hlt]
        · rw [getD_append_lt _ _ j hlt]
        · rw [getD_append_lt _ _ j (by omega)]
      · -- a point of a block appended for the remaining tuples
        obtain ⟨j', rfl⟩ : ∃ j', j = r.magn.length + j' :=
          ⟨j - r.magn.length, by omega⟩
        have hadd : st.cols + (r.magn.length + j') = a1.cols + j' := by omega
        obtain ⟨f0, f1, f2, f3⟩ := hnew2 j' (by omega)
        rw [hadd, f0, f1, f2, f3, col0Spec_cons, col1Spec_cons, col2Spec_cons,
          col3Spec_cons]
        constructor
        · rw [show r.magn.length + j' = (List.replicate r.magn.length r.s1).length + j'
            by simp, getD_append_add]
        constructor
        · rw [show r.magn.length + j' = (List.replicate r.magn.length r.s2).length + j'
            by simp, getD_append_add]
        constructor
        · exact (getD_append_add r.magn (col2Spec rest) j').symm
        · rw [show r.magn.length + j' = r.phas.length + j' by omega, getD_append_add]

/-- Entry `(i, j)` of the array produced by a writer run, `none` when the run
raised. -/
def runGet (x : Except String NArray) (i j : Nat) : Option ℚ :=
  match x with
  | Except.ok a => some (a.get i j)
  | Except.error _ => none

/-- Shape of the array produced by a writer run, `none` when the run raised. -/
def runShape (x : Except String NArray) : Option (Nat × Nat) :=
  match x with
  | Except.ok a => some (a.rows, a.cols)
  | Except.error _ => none

/-! ### The custom `time_it` decorator -/

/-- A value returned by the profiled function `sut`: either a tuple, whose
first element is the duration the function itself measured between its
internal start and stop markers, or a sole non-tuple value. -/
inductive SutRet where
  | tuple : ℚ → List ℚ → SutRet
  | single : ℚ → SutRet
deriving DecidableEq

/-- `returned_vals[0] if isinstance(returned_vals, tuple) else returned_vals`:
the duration the `inner` loop accumulates for one `sut` call. -/
def SutRet.reported : SutRet → ℚ
  | SutRet.tuple t _ => t
  | SutRet.single v => v

/-- The `inner(_it, _timer)` loop installed on the `timeit.Timer`: run `sut`
once per `_it` iteration, starting at global call index `base`, adding the
reported duration to `total_time`; any exception of `sut` propagates. -/
def innerLoop (sut : Nat → Except String SutRet) : Nat → Nat → ℚ → Except String ℚ
  | _, 0, acc => Except.ok acc
  | base, n + 1, acc =>
    match sut base with
    | Except.error e => Except.error e
    | Except.ok rv => innerLoop sut (base + 1) n (acc + rv.reported)

/-- `Timer.repeat(repeat, number)`: run the `inner` loop `rep` times in
sequence, collecting the per-run totals; `sut` keeps its call history across
runs, so run `k` consumes global call indices `k*number, ..., k*number+number-1`. -/
def timerRepeat (sut : Nat → Except String SutRet) (number : Nat) :
    Nat → Nat → Except String (List ℚ)
  | _, 0 => Except.ok []
  | base, rep + 1 =>
    match innerLoop sut base number 0 with
    | Except.error e => Except.error e
    | Except.ok t =>
      match timerRepeat sut number (base + number) rep with
      | Except.error e => Except.error e
      | Except.ok ts => Except.ok (t :: ts)

/-- The `TimeitResult(number, repeat, best, worst, all_runs, 0, 3)` object the
wrapper builds, pretty-prints and returns. -/
structure TimeitResult where
  loops : Nat
  reps : Nat
  best : ℚ
  worst : ℚ
  all_runs : List ℚ
  compile_time : ℚ
  precision : Nat
deriving DecidableEq

/-- `min` of a nonempty Python sequence; `none` models the `ValueError`
raised on an empty one. -/
def pyMin : List ℚ → Option ℚ
  | [] => none
  | x :: xs => some (xs.foldl min x)

/-- `max` of a nonempty Python sequence; `none` models the `ValueError`
raised on an empty one. -/
def pyMax : List ℚ → Option ℚ
  | [] => none
  | x :: xs => some (xs.foldl max x)

/-- How a call of the decorated function ends: with a printed and returned
`TimeitResult`; with the traceback printed and the `sut` exception re-raised
(the `except: t.print_exc(); raise` path); or with the uncaught `ValueError`
of `min([])` when `repeat` is zero. -/
inductive WrapperOutcome where
  | result : TimeitResult → WrapperOutcome
  | sutRaised : String → WrapperOutcome
  | minRaisedValueError : WrapperOutcome
deriving DecidableEq

/-- The `wrapper` produced by `time_it(number, repeat)` around `sut`, for a
given `number` (the `number is None` autorange branch is not taken when a
number is supplied): collect `all_runs` by `t.repeat(repeat, number)`, then
build the `TimeitResult` from `min(all_runs)/number` and `max(all_runs)/number`. -/
def time_it_wrapper (sut : Nat → Except String SutRet) (number rep : Nat) :
    WrapperOutcome :=
  match timerRepeat sut number 0 rep with
  | Except.error e => WrapperOutcome.sutRaised e
  | Except.ok all_runs =>
    match pyMin all_runs, pyMax all_runs with
    | some mn, some mx =>
      WrapperOutcome.result ⟨number, rep, mn / number, mx / number, all_runs, 0, 3⟩
    | _, _ => WrapperOutcome.minRaisedValueError

/-- The per-run totals the claim describes: run `k` sums the reported
durations of calls `k*number + i` for `i < number`. -/
def allRunsSpec (f : Nat → SutRet) (number rep : Nat) : List ℚ :=
  (List.range rep).map fun k =>
    ∑ i ∈ Finset.range number, (f (k * number + i)).reported

/-- The `inner` loop on an exception-free `sut` accumulates the reported
durations onto the running total. -/
theorem innerLoop_ok_val (f : Nat → SutRet) :
    ∀ (n base : Nat) (acc : ℚ),
      innerLoop (fun i => Except.ok (f i)) base n acc =
        Except.ok (acc + ∑ i ∈ Finset.range n, (f (base + i)).reported) := by
  intro n
  induction n with
  | zero => intro base acc; simp [innerLoop]
  | succ n ih =>
    intro base acc
    show innerLoop _ (base + 1) n (acc + (f base).reported) = _
    rw [ih]
    congr 1
    rw [Finset.sum_range_succ']
    have h2 : (∑ i ∈ Finset.range n, (f (base + (i + 1))).reported) =
        ∑ i ∈ Finset.range n, (f (base + 1 + i)).reported :=
      Finset.sum_congr rfl fun i _ => by
        rw [show base + (i + 1) = base + 1 + i from by omega]
    rw [h2]
    simp only [Nat.add_zero]
    linarith

/-- `Timer.repeat` on an exception-free `sut` returns the list of block sums,
block `k` starting at global call index `base + k * number`. -/
theorem timerRepeat_ok_val (f : Nat → SutRet) (number : Nat) :
    ∀ (rep base : Nat),
      timerRepeat (fun i => Except.ok (f i)) number base rep =
        Except.ok ((List.range rep).map fun k =>
          ∑ i ∈ Finset.range number, (f (base + k * number + i)).reported) := by
  intro rep
  induction rep with
  | zero => intro base; simp [timerRepeat]
  | succ rep ih =>
    intro base
    rw [timerRepeat, innerLoop_ok_val f number base 0, ih (base + number)]
    dsimp only
    congr 1
    rw [List.range_succ_eq_map, List.map_cons, List.map_map]
    congr 1
    · simp only [zero_add, Nat.zero_mul, Nat.add_zero]
    · refine List.map_congr_left fun k _ => ?_
      show (∑ i ∈ Finset.range number, (f (base + number + k * number + i)).reported) =
        ∑ i ∈ Finset.range number, (f (base + Nat.succ k * number + i)).reported
      exact Finset.sum_congr rfl fun i _ => by
        rw [show base + number + k * number + i = base + Nat.succ k * number + i from by
          rw [Nat.succ_mul]; omega]

/-- If all `sut` calls of a block succeed, the `inner` loop succeeds. -/
theorem innerLoop_ok_of_all_ok (sut : Nat → Except String SutRet) :
    ∀ (n base : Nat) (acc : ℚ), (∀ i, i < n → ∃ v, sut (base + i) = Except.ok v) →
      ∃ t, innerLoop sut base n acc = Except.ok t := by
  intro n
  induction n with
  | zero => exact fun base acc _ => ⟨acc, rfl⟩
  | succ n ih =>
    intro base acc h
    obtain ⟨v, hv⟩ := h 0 (Nat.succ_pos n)
    rw [Nat.add_zero] at hv
    rw [innerLoop, hv]
    exact ih (base + 1) (acc + v.reported) fun i hi => by
      obtain ⟨w, hw⟩ := h (i + 1) (by omega)
      exact ⟨w, by rwa [show base + (i + 1) = base + 1 + i from by omega] at hw⟩

/-- The first failing `sut` call makes the `inner` loop raise its exception. -/
theorem innerLoop_error_at (sut : Nat → Except String SutRet) (e : String) :
    ∀ (n base : Nat) (acc : ℚ) (d : Nat), d < n →
      (∀ i, i < d → ∃ v, sut (base + i) = Except.ok v) →
      sut (base + d) = Except.error e →
      innerLoop sut base n acc = Except.error e := by
  intro n
  induction n with
  | zero => intro base acc d hd; omega
  | succ n ih =>
    intro base acc d hd hok he
    cases d with
    | zero =>
      rw [Nat.add_zero] at he
      rw [innerLoop, he]
    | succ d =>
      obtain ⟨v, hv⟩ := hok 0 (Nat.succ_pos d)
      rw [Nat.add_zero] at hv
      rw [innerLoop, hv]
      refine ih (base + 1) (acc + v.reported) d (by omega) (fun i hi => ?_) ?_
      · obtain ⟨w, hw⟩ := hok (i + 1) (by omega)
        exact ⟨w, by rwa [show base + (i + 1) = base + 1 + i from by omega] at hw⟩
      · rwa [show base + Nat.succ d = base + 1 + d from by omega] at he

/-- The first failing `sut` call makes `Timer.repeat` raise its exception. -/
theorem timerRepeat_error_at (sut : Nat → Except String SutRet) (number : Nat) (e : String) :
    ∀ (rep base j : Nat), j < rep * number →
      (∀ i, i < j → ∃ v, sut (base + i) = Except.ok v) →
      sut (base + j) = Except.error e →
      timerRepeat sut number base rep = Except.error e := by
  intro rep
  induction rep with
  | zero => intro base j hj; simp at hj
  | succ rep ih =>
    intro base j hj hok he
    have hsm : (rep + 1) * number = rep * number + number := by ring
    rcases Nat.lt_or_ge j number with hlt | hge
    · rw [timerRepeat, innerLoop_error_at sut e number base 0 j hlt hok he]
    · obtain ⟨t, ht⟩ := innerLoop_ok_of_all_ok sut number base 0
        (fun i hi => hok i (by omega))
      have hok2 : ∀ i, i < j - number → ∃ v, sut (base + number + i) = Except.ok v := by
        intro i hi
        obtain ⟨w, hw⟩ := hok (number + i) (by omega)
        exact ⟨w, by rwa [show base + (number + i) = base + number + i from by omega] at hw⟩
      have he2 : sut (base + number + (j - number)) = Except.error e := by
        rwa [show base + j = base + number + (j - number) from by omega] at he
      rw [timerRepeat, ht]
      dsimp only
      rw [ih (base + number) (j - number) (by omega) hok2 he2]

/-- C1: for every profiled function and positive `number` and `repeat`, the
wrapper produced by the `time_it` decorator accumulates per timing run the
sum, over the `number` executions, of the duration that `sut` itself reports
(the first element of its return tuple, or its sole return value when it is
not a tuple), and returns a `TimeitResult` whose `best` and `worst` fields
equal `min(all_runs)/number` and `max(all_runs)/number` over the `repeat`
collected run totals. -/
theorem claim_time_it_sums_reported (f : Nat → SutRet) (number rep : Nat)
    (hn : 0 < number) (hr : 0 < rep) :
    (∀ t rest, (SutRet.tuple t rest).reported = t) ∧
    (∀ v, (SutRet.single v).reported = v) ∧
    ∃ mn mx, pyMin (allRunsSpec f number rep) = some mn ∧
      pyMax (allRunsSpec f number rep) = some mx ∧
      time_it_wrapper (fun i => Except.ok (f i)) number rep =
        WrapperOutcome.result ⟨number, rep, mn / (number : ℚ), mx / (number : ℚ),
          allRunsSpec f number rep, 0, 3⟩ := by
  refine ⟨fun _ _ => rfl, fun _ => rfl, ?_⟩
  have hruns : timerRepeat (fun i => Except.ok (f i)) number 0 rep
      = Except.ok (allRunsSpec f number rep) := by
    rw [timerRepeat_ok_val]
    congr 1
    refine List.map_congr_left fun k _ => ?_
    exact Finset.sum_congr rfl fun i _ => by rw [Nat.zero_add]
  obtain ⟨x, xs, hx⟩ : ∃ x xs, allRunsSpec f number rep = x :: xs := by
    cases hcase : allRunsSpec f number rep with
    | nil =>
      exfalso
      have hlenr : (allRunsSpec f number rep).length = rep := by simp [allRunsSpec]
      rw [hcase] at hlenr
      simp at hlenr
      omega
    | cons x xs => exact ⟨x, xs, rfl⟩
  refine ⟨xs.foldl min x, xs.foldl max x, by rw [hx]; rfl, by rw [hx]; rfl, ?_⟩
  unfold time_it_wrapper
  rw [hruns, hx]
  rfl

/-- Witness for C1 at `sut i = single i`, `number = 2`, `repeat = 2`. -/
theorem claim_time_it_sums_reported_witness :
    0 < 2 ∧ 0 < 2 ∧
    ((∀ t rest, (SutRet.tuple t rest).reported = t) ∧
     (∀ v, (SutRet.single v).reported = v) ∧
     ∃ mn mx, pyMin (allRunsSpec (fun i => SutRet.single (i : ℚ)) 2 2) = some mn ∧
       pyMax (allRunsSpec (fun i => SutRet.single (i : ℚ)) 2 2) = some mx ∧
       time_it_wrapper (fun i => Except.ok (SutRet.single (i : ℚ))) 2 2 =
         WrapperOutcome.result ⟨2, 2, mn / ((2 : Nat) : ℚ), mx / ((2 : Nat) : ℚ),
           allRunsSpec (fun i => SutRet.single (i : ℚ)) 2 2, 0, 3⟩) :=
  ⟨by norm_num, by norm_num,
    claim_time_it_sums_reported (fun i => SutRet.single (i : ℚ)) 2 2
      (by norm_num) (by norm_num)⟩

/-- C6: if the profiled function raises an exception during a timing run, the
`time_it` wrapper re-raises that exception to its caller (the
`except: t.print_exc(); raise` path) and returns no timing result. -/
theorem claim_time_it_reraises (sut : Nat → Except String SutRet)
    (number rep j : Nat) (e : String) (hj : j < rep * number)
    (hok : ∀ i, i < j → ∃ v, sut i = Except.ok v)
    (he : sut j = Except.error e) :
    time_it_wrapper sut number rep = WrapperOutcome.sutRaised e := by
  unfold time_it_wrapper
  rw [timerRepeat_error_at sut number e rep 0 j hj
    (fun i hi => by simpa using hok i hi) (by simpa using he)]

/-- Witness for C6 at a `sut` whose second call raises `"boom"`. -/
theorem claim_time_it_reraises_witness :
    1 < 1 * 2 ∧
    time_it_wrapper (fun i => if i = 0 then Except.ok (SutRet.single 1)
      else Except.error "boom") 2 1 = WrapperOutcome.sutRaised "boom" :=
  ⟨by norm_num,
    claim_time_it_reraises
      (fun i => if i = 0 then Except.ok (SutRet.single 1) else Except.error "boom")
      2 1 1 "boom" (by norm_num)
      (fun i hi => by interval_cases i; exact ⟨SutRet.single 1, rfl⟩)
      rfl⟩

/-- Once the handle is no longer file-backed, the `save_to_npy` loop is the
plain `saveLoop` on the in-memory array and the file is never written. -/
theorem npyLoop_not_backed :
    ∀ (data : List MeasRecord) (file : NArray) (arr : NArray),
      npyLoop file ⟨arr, false⟩ data =
        match saveLoop ndarrayResize arr data with
        | Except.error e => Except.error e
        | Except.ok a => Except.ok (file, ⟨a, false⟩) := by
  intro data
  induction data with
  | nil => intro file arr; rfl
  | cons r rest ih =>
    intro file arr
    rw [npyLoop, saveLoop]
    cases saveStep ndarrayResize arr r with
    | error e => rfl
    | ok a =>
      dsimp only
      rw [if_neg (by simp)]
      exact ih file a

/-- `save_to_npy` in terms of the in-memory run: the `.npy` file keeps the
initial empty `4 × 0` array on every successful run. -/
theorem save_to_npy_spec (data : List MeasRecord) :
    save_to_npy data =
      match saveLoop ndarrayResize emptyDS data with
      | Except.error e => Except.error e
      | Except.ok a => Except.ok ⟨emptyDS, a, SaveReturn.noneVal⟩ := by
  show (match npyLoop (requireOwnData openMemmap.1 openMemmap.2).1
      (requireOwnData openMemmap.1 openMemmap.2).2 data with
    | Except.error e => Except.error e
    | Except.ok fh =>
        Except.ok (⟨delHandle fh.1 fh.2, fh.2.arr, SaveReturn.noneVal⟩ : NpyOutcome)) = _
  have hreq : requireOwnData openMemmap.1 openMemmap.2 = (emptyDS, ⟨emptyDS, false⟩) := rfl
  rw [hreq]
  rw [npyLoop_not_backed data emptyDS emptyDS]
  cases saveLoop ndarrayResize emptyDS data with
  | error e => rfl
  | ok a => rfl

/-- Shapes of the file and in-memory arrays of a `save_to_npy` run. -/
def npyFileShape (x : Except String NpyOutcome) : Option (Nat × Nat) :=
  match x with
  | Except.ok o => some (o.fileArr.rows, o.fileArr.cols)
  | Except.error _ => none

/-- Shape of the in-memory array of a `save_to_npy` run. -/
def npyMemShape (x : Except String NpyOutcome) : Option (Nat × Nat) :=
  match x with
  | Except.ok o => some (o.memArr.rows, o.memArr.cols)
  | Except.error _ => none

/-- Entry of the in-memory array of a `save_to_npy` run. -/
def npyMemGet (x : Except String NpyOutcome) (i j : Nat) : Option ℚ :=
  match x with
  | Except.ok o => some (o.memArr.get i j)
  | Except.error _ => none

/-- Shape of the dataset stored by a `save_to_hdf5` run. -/
def hdf5Shape (x : Except String (NArray × SaveReturn)) : Option (Nat × Nat) :=
  match x with
  | Except.ok p => some (p.1.rows, p.1.cols)
  | Except.error _ => none

/-- Entry of the dataset stored by a `save_to_hdf5` run. -/
def hdf5Get (x : Except String (NArray × SaveReturn)) (i j : Nat) : Option ℚ :=
  match x with
  | Except.ok p => some (p.1.get i j)
  | Except.error _ => none

/-- `saveLoop` over an appended list runs the two parts in sequence. -/
theorem saveLoop_append (resize : NArray → Nat × Nat → NArray)
    (xs : List MeasRecord) :
    ∀ (ys : List MeasRecord) (st : NArray),
      saveLoop resize st (xs ++ ys) =
        match saveLoop resize st xs with
        | Except.error e => Except.error e
        | Except.ok a => saveLoop resize a ys := by
  induction xs with
  | nil => intro ys st; rfl
  | cons r rest ih =>
    intro ys st
    show saveLoop resize st (r :: (rest ++ ys)) = _
    rw [saveLoop, saveLoop]
    cases saveStep resize st r with
    | error e => rfl
    | ok a => exact ih ys a

/-- The matching-lengths condition restricts to every prefix. -/
theorem goodLens_take (data : List MeasRecord) (hg : goodLens data) (k : Nat) :
    goodLens (data.take k) := fun r hr => hg r (List.mem_of_mem_take hr)

theorem totalPts_append (xs ys : List MeasRecord) :
    totalPts (xs ++ ys) = totalPts xs + totalPts ys := by
  simp [totalPts]

/-- When every tuple carries `m` points, a run appends `length * m` points. -/
theorem totalPts_const (data : List MeasRecord) (m : Nat)
    (h : ∀ r ∈ data, r.magn.length = m) : totalPts data = data.length * m := by
  induction data with
  | nil => simp [totalPts]
  | cons r rest ih =>
    rw [totalPts_cons, ih fun x hx => h x (List.mem_cons_of_mem r hx),
      h r (List.mem_cons_self r rest), List.length_cons]
    ring

/-- C2 (amended): the two writers are not equivalent.  `save_to_hdf5` stores
the intended `4 × totalPts` array — row 0 the repeated `s1_val`, row 1 the
repeated `s2_val`, row 2 the concatenated `magn_vals`, row 3 the concatenated
`phas_vals`, appended in generator order — while `save_to_npy` leaves the
`.npy` file holding the initial `4 × 0` array (the
`numpy.require(..., ['OWNDATA'])` copy detaches the buffer from the file) and
only its in-memory array reaches shape `4 × totalPts`, without matching the
hdf5 layout in general. -/
theorem claim_writers_not_equivalent (data : List MeasRecord)
    (hg : ∀ r ∈ data, r.phas.length = r.magn.length) :
    (∃ a, save_to_hdf5 data = Except.ok (a, SaveReturn.noneVal) ∧
      a.rows = 4 ∧ a.cols = totalPts data ∧
      ∀ j, j < totalPts data →
        a.get 0 j = (col0Spec data).getD j 0 ∧
        a.get 1 j = (col1Spec data).getD j 0 ∧
        a.get 2 j = (col2Spec data).getD j 0 ∧
        a.get 3 j = (col3Spec data).getD j 0) ∧
    (∃ o, save_to_npy data = Except.ok o ∧
      o.fileArr.rows = 4 ∧ o.fileArr.cols = 0 ∧
      o.memArr.rows = 4 ∧ o.memArr.cols = totalPts data) := by
  constructor
  · obtain ⟨a, hrun, hr, hc, hpres, hnew⟩ := saveLoop_h5py_get data emptyDS hg rfl
    refine ⟨a, ?_, hr, ?_, ?_⟩
    · unfold save_to_hdf5
      rw [hrun]
    · rw [hc]
      show emptyDS.cols + totalPts data = totalPts data
      simp [emptyDS]
    · intro j hj
      have hres := hnew j hj
      simpa [emptyDS] using hres
  · obtain ⟨b, hbrun, hbr, hbc⟩ := saveLoop_ok_shape ndarrayResize
      (fun a s => ⟨rfl, rfl⟩) data emptyDS hg
    refine ⟨⟨emptyDS, b, SaveReturn.noneVal⟩, ?_, rfl, rfl, ?_, ?_⟩
    · rw [save_to_npy_spec, hbrun]
    · rw [hbr]
      rfl
    · rw [hbc]
      show emptyDS.cols + totalPts data = totalPts data
      simp [emptyDS]

/-- Witness for C2 (amended) at the one-tuple input `(1, 2, [3], [4])`. -/
theorem claim_writers_not_equivalent_witness :
    (∀ r ∈ ([⟨1, 2, [3], [4]⟩] : List MeasRecord),
      r.phas.length = r.magn.length) ∧
    ((∃ a, save_to_hdf5 [⟨1, 2, [3], [4]⟩] = Except.ok (a, SaveReturn.noneVal) ∧
      a.rows = 4 ∧ a.cols = totalPts [⟨1, 2, [3], [4]⟩] ∧
      ∀ j, j < totalPts [⟨1, 2, [3], [4]⟩] →
        a.get 0 j = (col0Spec [⟨1, 2, [3], [4]⟩]).getD j 0 ∧
        a.get 1 j = (col1Spec [⟨1, 2, [3], [4]⟩]).getD j 0 ∧
        a.get 2 j = (col2Spec [⟨1, 2, [3], [4]⟩]).getD j 0 ∧
        a.get 3 j = (col3Spec [⟨1, 2, [3], [4]⟩]).getD j 0) ∧
    (∃ o, save_to_npy [⟨1, 2, [3], [4]⟩] = Except.ok o ∧
      o.fileArr.rows = 4 ∧ o.fileArr.cols = 0 ∧
      o.memArr.rows = 4 ∧ o.memArr.cols = totalPts [⟨1, 2, [3], [4]⟩])) :=
  ⟨by decide, claim_writers_not_equivalent [⟨1, 2, [3], [4]⟩] (by decide)⟩

/-- C2 counterexample: already on the single-tuple input `(5, 6, [7], [8])`
the stored arrays differ in shape (`4 × 1` in the HDF5 file versus the
`4 × 0` array left in the `.npy` file), and on the two-tuple input the
in-memory npy array also differs in values from the stored hdf5 dataset at
position `(1, 0)`. -/
theorem claim_writers_equiv_counterexample :
    hdf5Shape (save_to_hdf5 [⟨5, 6, [7], [8]⟩]) = some (4, 1) ∧
    npyFileShape (save_to_npy [⟨5, 6, [7], [8]⟩]) = some (4, 0) ∧
    ((4, 1) : Nat × Nat) ≠ (4, 0) ∧
    hdf5Get (save_to_hdf5 [⟨5, 6, [7], [8]⟩, ⟨9, 10, [11], [12]⟩]) 1 0 = some 6 ∧
    npyMemGet (save_to_npy [⟨5, 6, [7], [8]⟩, ⟨9, 10, [11], [12]⟩]) 1 0 = some 7 ∧
    (6 : ℚ) ≠ 7 := by decide

/-- C5: the code contradicts its own comments — after `save_to_npy` on a
generator yielding the single tuple `(5, 6, [7], [8])`, the `.npy` file still
holds the empty `4 × 0` array although one point per column was generated
and the in-memory array reached shape `4 × 1`: the writes performed after
`numpy.require(..., requirements=['OWNDATA'])` never reach the file, and the
final `del` flushes nothing. -/
theorem claim_npy_file_stays_empty :
    npyFileShape (save_to_npy [⟨5, 6, [7], [8]⟩]) = some (4, 0) ∧
    npyMemShape (save_to_npy [⟨5, 6, [7], [8]⟩]) = some (4, 1) ∧
    totalPts [⟨5, 6, [7], [8]⟩] = 1 ∧ (1 : Nat) ≠ 0 := by decide

/-- C3 (amended): throughout every run of both writers the destination keeps
first dimension 4, and its second dimension grows by `len(magn_vals)` at each
iteration; but only `save_to_hdf5` never overwrites values written in
earlier iterations — `save_to_npy`'s `ndarray.resize` keeps the flat buffer,
so earlier logical positions change (see the counterexample). -/
theorem claim_growing_array_invariant (data : List MeasRecord) (hg : goodLens data) :
    (∀ k, k ≤ data.length →
      (∃ a, saveLoop h5pyResize emptyDS (data.take k) = Except.ok a ∧
        a.rows = 4 ∧ a.cols = totalPts (data.take k)) ∧
      (∃ b, saveLoop ndarrayResize emptyDS (data.take k) = Except.ok b ∧
        b.rows = 4 ∧ b.cols = totalPts (data.take k))) ∧
    (∀ k (hk : k < data.length),
      totalPts (data.take (k + 1)) =
        totalPts (data.take k) + (data.get ⟨k, hk⟩).magn.length) ∧
    (∀ k k', k ≤ k' → k' ≤ data.length →
      ∀ ak ak', saveLoop h5pyResize emptyDS (data.take k) = Except.ok ak →
        saveLoop h5pyResize emptyDS (data.take k') = Except.ok ak' →
        ∀ i j, i < 4 → j < totalPts (data.take k) → ak'.get i j = ak.get i j) := by
  refine ⟨?_, ?_, ?_⟩
  · intro k _
    constructor
    · obtain ⟨a, h1, h2, h3⟩ := saveLoop_ok_shape h5pyResize (fun a s => ⟨rfl, rfl⟩)
        (data.take k) emptyDS (goodLens_take data hg k)
      refine ⟨a, h1, by rw [h2]; rfl, ?_⟩
      rw [h3]
      show emptyDS.cols + totalPts (data.take k) = totalPts (data.take k)
      simp [emptyDS]
    · obtain ⟨b, h1, h2, h3⟩ := saveLoop_ok_shape ndarrayResize (fun a s => ⟨rfl, rfl⟩)
        (data.take k) emptyDS (goodLens_take data hg k)
      refine ⟨b, h1, by rw [h2]; rfl, ?_⟩
      rw [h3]
      show emptyDS.cols + totalPts (data.take k) = totalPts (data.take k)
      simp [emptyDS]
  · intro k hk
    rw [← List.take_concat_get' data k hk, totalPts_append]
    simp [totalPts]
  · intro k k' hkk' hk' ak ak' hak hak' i j hi hj
    have hsplit : data.take k' = data.take k ++ (data.drop k).take (k' - k) := by
      rw [← List.take_add]
      congr 1
      omega
    obtain ⟨a0, h0run, h0r, h0c⟩ := saveLoop_ok_shape h5pyResize (fun a s => ⟨rfl, rfl⟩)
      (data.take k) emptyDS (goodLens_take data hg k)
    have hak0 : ak = a0 := Except.ok.inj (hak.symm.trans h0run)
    have hmidg : goodLens ((data.drop k).take (k' - k)) := fun r hr =>
      hg r (List.mem_of_mem_drop (List.mem_of_mem_take hr))
    have hakr : ak.rows = 4 := by rw [hak0, h0r]; rfl
    obtain ⟨a1, h1run, h1r, h1c, h1pres, -⟩ :=
      saveLoop_h5py_get ((data.drop k).take (k' - k)) ak hmidg hakr
    have hrun' : saveLoop h5pyResize emptyDS (data.take k') = Except.ok a1 := by
      rw [hsplit, saveLoop_append, hak]
      exact h1run
    have hak1 : ak' = a1 := Except.ok.inj (hak'.symm.trans hrun')
    rw [hak1]
    refine h1pres i j hi ?_
    rw [hak0, h0c]
    show j < emptyDS.cols + totalPts (data.take k)
    simpa [emptyDS] using hj

/-- Witness for C3 (amended) at the one-tuple input `(1, 2, [3], [4])`. -/
theorem claim_growing_array_invariant_witness :
    goodLens [⟨1, 2, [3], [4]⟩] ∧
    ((∀ k, k ≤ ([⟨1, 2, [3], [4]⟩] : List MeasRecord).length →
      (∃ a, saveLoop h5pyResize emptyDS (([⟨1, 2, [3], [4]⟩] :
          List MeasRecord).take k) = Except.ok a ∧
        a.rows = 4 ∧ a.cols = totalPts (([⟨1, 2, [3], [4]⟩] :
          List MeasRecord).take k)) ∧
      (∃ b, saveLoop ndarrayResize emptyDS (([⟨1, 2, [3], [4]⟩] :
          List MeasRecord).take k) = Except.ok b ∧
        b.rows = 4 ∧ b.cols = totalPts (([⟨1, 2, [3], [4]⟩] :
          List MeasRecord).take k))) ∧
    (∀ k (hk : k < ([⟨1, 2, [3], [4]⟩] : List MeasRecord).length),
      totalPts (([⟨1, 2, [3], [4]⟩] : List MeasRecord).take (k + 1)) =
        totalPts (([⟨1, 2, [3], [4]⟩] : List MeasRecord).take k) +
          (([⟨1, 2, [3], [4]⟩] : List MeasRecord).get ⟨k, hk⟩).magn.length) ∧
    (∀ k k', k ≤ k' → k' ≤ ([⟨1, 2, [3], [4]⟩] : List MeasRecord).length →
      ∀ ak ak', saveLoop h5pyResize emptyDS (([⟨1, 2, [3], [4]⟩] :
          List MeasRecord).take k) = Except.ok ak →
        saveLoop h5pyResize emptyDS (([⟨1, 2, [3], [4]⟩] :
          List MeasRecord).take k') = Except.ok ak' →
        ∀ i j, i < 4 → j < totalPts (([⟨1, 2, [3], [4]⟩] :
          List MeasRecord).take k) → ak'.get i j = ak.get i j)) :=
  ⟨by intro r hr; fin_cases hr; rfl,
    claim_growing_array_invariant [⟨1, 2, [3], [4]⟩] (by intro r hr; fin_cases hr; rfl)⟩

/-- C3 counterexample: in the `save_to_npy` run over the two tuples
`(5, 6, [7], [8])` and `(9, 10, [11], [12])`, position `(1, 0)` of the
destination holds 6 after the first iteration but 7 after the second — the
second iteration overwrites a value written by the first. -/
theorem claim_growing_array_invariant_counterexample :
    runGet (saveLoop ndarrayResize emptyDS
      (([⟨5, 6, [7], [8]⟩, ⟨9, 10, [11], [12]⟩] : List MeasRecord).take 1)) 1 0
      = some 6 ∧
    runGet (saveLoop ndarrayResize emptyDS
      [⟨5, 6, [7], [8]⟩, ⟨9, 10, [11], [12]⟩]) 1 0 = some 7 ∧
    (6 : ℚ) ≠ 7 := by decide

/-! ### The dummy-data generator `make_data_producer` -/

/-- `make_data_producer(n_pts_per_param)` returns the generator
`produce_measurement_data`: for `s1_val` in `range(n)` and `s2_val` in
`range(n)`, take two fresh `numpy.random.rand(n)` draws (supplied here by the
`draw` parameter, one pair per `(s1_val, s2_val)` iteration), form
`magn_vals, phas_vals = numpy.meshgrid(x, y)` — `X[i, j] = x[j]` and
`Y[i, j] = y[i]`, each of shape `(n, n)` — reshape both to one dimension in C
order, and yield the tuple `(s1_val, s2_val, magn_vals, phas_vals)`. -/
def produce_measurement_data (n : Nat) (draw : Nat → Nat → List ℚ × List ℚ) :
    List MeasRecord :=
  (List.range n).flatMap fun s1v : Nat =>
    (List.range n).map fun s2v : Nat =>
      { s1 := (s1v : ℚ), s2 := (s2v : ℚ),
        magn := (List.range n).flatMap fun _ => (draw s1v s2v).1,
        phas := (List.range n).flatMap fun i =>
          List.replicate n ((draw s1v s2v).2.getD i 0) }

/-- Two nested `range` loops enumerate `range (n * m)` in lexicographic
order: element `i` of the flattened loop is the pair `(i / m, i % m)`. -/
theorem range_flatMap_map {α : Type} (f : Nat → Nat → α) (m : Nat) (hm : 0 < m) :
    ∀ n : Nat, (List.range n).flatMap (fun a => (List.range m).map (f a)) =
      (List.range (n * m)).map fun i => f (i / m) (i % m) := by
  intro n
  induction n with
  | zero => simp
  | succ n ih =>
    rw [List.range_succ, List.flatMap_append, ih]
    rw [show (n + 1) * m = n * m + m from by ring, List.range_add, List.map_append]
    congr 1
    simp only [List.flatMap_cons, List.flatMap_nil, List.append_nil, List.map_map]
    refine List.map_congr_left fun j hj => ?_
    have hjm : j < m := List.mem_range.mp hj
    show f n j = f ((n * m + j) / m) ((n * m + j) % m)
    rw [Nat.mul_comm n m, Nat.mul_add_div hm, Nat.div_eq_of_lt hjm, Nat.add_zero,
      Nat.mul_add_mod, Nat.mod_eq_of_lt hjm]

/-- Length of `n` concatenated copies of a list. -/
theorem length_flatMap_const (l : List ℚ) :
    ∀ n : Nat, ((List.range n).flatMap fun _ => l).length = n * l.length := by
  intro n
  induction n with
  | zero => simp
  | succ n ih =>
    rw [List.range_succ, List.flatMap_append, List.length_append, ih]
    simp only [List.flatMap_cons, List.flatMap_nil, List.append_nil]
    ring

/-- Length of the flattened `meshgrid` second component. -/
theorem length_flatMap_replicate (m : Nat) (g : Nat → ℚ) :
    ∀ n : Nat, ((List.range n).flatMap fun i => List.replicate m (g i)).length
      = n * m := by
  intro n
  induction n with
  | zero => simp
  | succ n ih =>
    rw [List.range_succ, List.flatMap_append, List.length_append, ih]
    simp only [List.flatMap_cons, List.flatMap_nil, List.append_nil,
      List.length_replicate]
    ring

/-- The generator as a single map over `range (n * n)`. -/
theorem produce_eq_map (n : Nat) (hn : 0 < n) (draw : Nat → Nat → List ℚ × List ℚ) :
    produce_measurement_data n draw =
      (List.range (n * n)).map fun i =>
        { s1 := ((i / n : Nat) : ℚ), s2 := ((i % n : Nat) : ℚ),
          magn := (List.range n).flatMap fun _ => (draw (i / n) (i % n)).1,
          phas := (List.range n).flatMap fun k =>
            List.replicate n ((draw (i / n) (i % n)).2.getD k 0) } :=
  range_flatMap_map (fun s1v s2v =>
    ({ s1 := (s1v : ℚ), s2 := (s2v : ℚ),
       magn := (List.range n).flatMap fun _ => (draw s1v s2v).1,
       phas := (List.range n).flatMap fun k =>
         List.replicate n ((draw s1v s2v).2.getD k 0) } : MeasRecord)) n hn n

/-- C9: for `n ≥ 1` and per-iteration draws of length `n`, the generator
yields exactly `n²` tuples, in lexicographic order over
`range(n) × range(n)` (tuple `i` carries `s1 = i / n`, `s2 = i % n`), with
`magn_vals` and `phas_vals` each of length `n²`; consequently a complete run
of either incremental writer appends exactly `n⁴` points per column. -/
theorem claim_data_producer_shape (n : Nat) (draw : Nat → Nat → List ℚ × List ℚ)
    (hn : 1 ≤ n)
    (hdraw : ∀ a b, (draw a b).1.length = n ∧ (draw a b).2.length = n) :
    (produce_measurement_data n draw).length = n ^ 2 ∧
    (∀ i (hi : i < (produce_measurement_data n draw).length),
      ((produce_measurement_data n draw).get ⟨i, hi⟩).s1 = ((i / n : Nat) : ℚ) ∧
      ((produce_measurement_data n draw).get ⟨i, hi⟩).s2 = ((i % n : Nat) : ℚ) ∧
      ((produce_measurement_data n draw).get ⟨i, hi⟩).magn.length = n ^ 2 ∧
      ((produce_measurement_data n draw).get ⟨i, hi⟩).phas.length = n ^ 2) ∧
    (∃ a, saveLoop h5pyResize emptyDS (produce_measurement_data n draw)
        = Except.ok a ∧ a.rows = 4 ∧ a.cols = n ^ 4) ∧
    (∃ o, save_to_npy (produce_measurement_data n draw) = Except.ok o ∧
      o.memArr.rows = 4 ∧ o.memArr.cols = n ^ 4) := by
  have hpos : 0 < n := hn
  have hmap := produce_eq_map n hpos draw
  have hlen : (produce_measurement_data n draw).length = n ^ 2 := by
    rw [hmap]
    simp [pow_two]
  have hgood : goodLens (produce_measurement_data n draw) := by
    intro r hr
    rw [hmap] at hr
    obtain ⟨i, hi, rfl⟩ := List.mem_map.mp hr
    show ((List.range n).flatMap fun k =>
      List.replicate n ((draw (i / n) (i % n)).2.getD k 0)).length = _
    rw [length_flatMap_replicate, length_flatMap_const, (hdraw (i / n) (i % n)).1]
  have hmagn : ∀ r ∈ produce_measurement_data n draw, r.magn.length = n * n := by
    intro r hr
    rw [hmap] at hr
    obtain ⟨i, hi, rfl⟩ := List.mem_map.mp hr
    show ((List.range n).flatMap fun _ => (draw (i / n) (i % n)).1).length = n * n
    rw [length_flatMap_const, (hdraw (i / n) (i % n)).1]
  have htot : totalPts (produce_measurement_data n draw) = n ^ 4 := by
    rw [totalPts_const (produce_measurement_data n draw) (n * n) hmagn, hlen]
    ring
  refine ⟨hlen, ?_, ?_, ?_⟩
  · intro i hi
    have hi' : i < n * n := by
      rw [hlen] at hi
      rw [pow_two] at hi
      exact hi
    have hget : (produce_measurement_data n draw).get ⟨i, hi⟩ =
        { s1 := ((i / n : Nat) : ℚ), s2 := ((i % n : Nat) : ℚ),
          magn := (List.range n).flatMap fun _ => (draw (i / n) (i % n)).1,
          phas := (List.range n).flatMap fun k =>
            List.replicate n ((draw (i / n) (i % n)).2.getD k 0) } := by
      show (produce_measurement_data n draw)[i] = _
      refine (List.getElem_of_eq hmap hi).trans ?_
      rw [List.getElem_map, List.getElem_range]
    rw [hget]
    refine ⟨rfl, rfl, ?_, ?_⟩
    · show ((List.range n).flatMap fun _ => (draw (i / n) (i % n)).1).length = n ^ 2
      rw [length_flatMap_const, (hdraw (i / n) (i % n)).1, pow_two]
    · show ((List.range n).flatMap fun k =>
        List.replicate n ((draw (i / n) (i % n)).2.getD k 0)).length = n ^ 2
      rw [length_flatMap_replicate, pow_two]
  · obtain ⟨a, h1, h2, h3⟩ := saveLoop_ok_shape h5pyResize (fun a s => ⟨rfl, rfl⟩)
      (produce_measurement_data n draw) emptyDS hgood
    refine ⟨a, h1, by rw [h2]; rfl, ?_⟩
    rw [h3, htot]
    show emptyDS.cols + n ^ 4 = n ^ 4
    simp [emptyDS]
  · obtain ⟨b, h1, h2, h3⟩ := saveLoop_ok_shape ndarrayResize (fun a s => ⟨rfl, rfl⟩)
      (produce_measurement_data n draw) emptyDS hgood
    refine ⟨⟨emptyDS, b, SaveReturn.noneVal⟩, ?_, by rw [h2]; rfl, ?_⟩
    · rw [save_to_npy_spec, h1]
    · show b.cols = n ^ 4
      rw [h3, htot]
      show emptyDS.cols + n ^ 4 = n ^ 4
      simp [emptyDS]

/-- Witness for C9 at `n = 1` with constant draws `([0], [0])`. -/
theorem claim_data_producer_shape_witness :
    1 ≤ 1 ∧ (∀ a b : Nat,
      ((fun _ _ => (([0], [0]) : List ℚ × List ℚ)) a b).1.length = 1 ∧
      ((fun _ _ => (([0], [0]) : List ℚ × List ℚ)) a b).2.length = 1) ∧
    ((produce_measurement_data 1 fun _ _ => ([0], [0])).length = 1 ^ 2 ∧
    (∀ i (hi : i < (produce_measurement_data 1 fun _ _ => ([0], [0])).length),
      ((produce_measurement_data 1 fun _ _ => ([0], [0])).get ⟨i, hi⟩).s1
        = ((i / 1 : Nat) : ℚ) ∧
      ((produce_measurement_data 1 fun _ _ => ([0], [0])).get ⟨i, hi⟩).s2
        = ((i % 1 : Nat) : ℚ) ∧
      ((produce_measurement_data 1 fun _ _ => ([0], [0])).get ⟨i, hi⟩).magn.length
        = 1 ^ 2 ∧
      ((produce_measurement_data 1 fun _ _ => ([0], [0])).get ⟨i, hi⟩).phas.length
        = 1 ^ 2) ∧
    (∃ a, saveLoop h5pyResize emptyDS (produce_measurement_data 1 fun _ _ => ([0], [0]))
        = Except.ok a ∧ a.rows = 4 ∧ a.cols = 1 ^ 4) ∧
    (∃ o, save_to_npy (produce_measurement_data 1 fun _ _ => ([0], [0]))
        = Except.ok o ∧ o.memArr.rows = 4 ∧ o.memArr.cols = 1 ^ 4)) :=
  ⟨le_refl 1, fun a b => ⟨rfl, rfl⟩,
    claim_data_producer_shape 1 (fun _ _ => ([0], [0])) (le_refl 1)
      (fun a b => ⟨rfl, rfl⟩)⟩

/-! ### Timing-loop inventory of the benchmark notebooks -/

/-- The clock function a benchmark loop reads to form its elapsed-time
deltas. -/
inductive ClockKind where
  | perfCounter : ClockKind
  | timeTime : ClockKind
deriving DecidableEq

/-- One benchmark routine: its clock, whether it takes the two readings
inside the routine around its N-iteration read/write loop, and whether a
summary of the measured numbers is printed. -/
structure BenchmarkRoutine where
  name : String
  clock : ClockKind
  recordsDeltaAroundLoop : Bool
  printsSummary : Bool
deriving DecidableEq

/-- The timing loops of the repository, transcribed from the notebooks:
`save_to_sqlite` brackets its datasaver loop with `time.perf_counter()` and
its result is printed by the `time_it` wrapper and the subsequent print
cells; the four DMM loops (raw readings with displays on and off, and the
1-D/2-D QDac sweeps) bracket their loops with `time.time()` and print the
elapsed seconds; `benchmark_seqx` brackets each upload iteration with
`time.perf_counter()` and the notebook prints mean and deviation. -/
def benchmarkRoutines : List BenchmarkRoutine :=
  [⟨"save_to_sqlite", ClockKind.perfCounter, true, true⟩,
   ⟨"dmm_raw_readings_displays_on", ClockKind.timeTime, true, true⟩,
   ⟨"dmm_raw_readings_displays_off", ClockKind.timeTime, true, true⟩,
   ⟨"dmm_sweep_1d", ClockKind.timeTime, true, true⟩,
   ⟨"dmm_sweep_2d", ClockKind.timeTime, true, true⟩,
   ⟨"benchmark_seqx", ClockKind.perfCounter, true, true⟩]

/-- C4 counterexample: the DMM raw-readings loop (displays on) is a benchmark
routine of the repository whose elapsed time comes from `time.time()`, not
`time.perf_counter()`. -/
theorem claim_perf_counter_counterexample :
    (⟨"dmm_raw_readings_displays_on", ClockKind.timeTime, true, true⟩ :
      BenchmarkRoutine) ∈ benchmarkRoutines ∧
    (⟨"dmm_raw_readings_displays_on", ClockKind.timeTime, true, true⟩ :
      BenchmarkRoutine).clock ≠ ClockKind.perfCounter := by decide

/-- C4 (amended): every benchmark routine records elapsed time as the
difference of two clock readings taken inside the routine around its
read/write loop and a summary of the measured numbers is printed; the clock
is `time.perf_counter()` in `save_to_sqlite` and `benchmark_seqx`, but
`time.time()` in the DMM raw-readings and sweep loops. -/
theorem claim_perf_counter_amended (r : BenchmarkRoutine)
    (hr : r ∈ benchmarkRoutines) :
    r.recordsDeltaAroundLoop = true ∧ r.printsSummary = true ∧
    (r.clock = ClockKind.perfCounter ∨ r.clock = ClockKind.timeTime) ∧
    (r.clock = ClockKind.perfCounter ↔
      r.name = "save_to_sqlite" ∨ r.name = "benchmark_seqx") := by
  fin_cases hr <;> simp

/-- Witness for C4 (amended) at the `save_to_sqlite` routine. -/
theorem claim_perf_counter_amended_witness :
    (⟨"save_to_sqlite", ClockKind.perfCounter, true, true⟩ : BenchmarkRoutine)
      ∈ benchmarkRoutines ∧
    ((⟨"save_to_sqlite", ClockKind.perfCounter, true, true⟩ :
        BenchmarkRoutine).recordsDeltaAroundLoop = true ∧
     (⟨"save_to_sqlite", ClockKind.perfCounter, true, true⟩ :
        BenchmarkRoutine).printsSummary = true ∧
     ((⟨"save_to_sqlite", ClockKind.perfCounter, true, true⟩ :
        BenchmarkRoutine).clock = ClockKind.perfCounter ∨
      (⟨"save_to_sqlite", ClockKind.perfCounter, true, true⟩ :
        BenchmarkRoutine).clock = ClockKind.timeTime) ∧
     ((⟨"save_to_sqlite", ClockKind.perfCounter, true, true⟩ :
        BenchmarkRoutine).clock = ClockKind.perfCounter ↔
      (⟨"save_to_sqlite", ClockKind.perfCounter, true, true⟩ :
        BenchmarkRoutine).name = "save_to_sqlite" ∨
      (⟨"save_to_sqlite", ClockKind.perfCounter, true, true⟩ :
        BenchmarkRoutine).name = "benchmark_seqx")) :=
  ⟨by decide, claim_perf_counter_amended
    ⟨"save_to_sqlite", ClockKind.perfCounter, true, true⟩ (by decide)⟩

/-! ### Handle lifecycles -/

/-- Opening and closing of a named file handle or instrument connection. -/
inductive HandleEvent where
  | openEv : String → HandleEvent
  | closeEv : String → HandleEvent
deriving DecidableEq

/-- `with h5py.File(filename, 'w') as f: body` — the file is opened, the body
(which performs no handle operation of its own) runs, and the file is closed
on exit of the with-block on every execution path; a body exception then
propagates. -/
def withFile (nm : String) (body : Except String Unit) :
    List HandleEvent × Option String :=
  ([HandleEvent.openEv nm, HandleEvent.closeEv nm],
   match body with
   | Except.ok _ => none
   | Except.error e => some e)

/-- Handle trace of `save_to_hdf5`. -/
def save_to_hdf5_handles (data : List MeasRecord) :
    List HandleEvent × Option String :=
  withFile "hdf5file"
    (match saveLoop h5pyResize emptyDS data with
     | Except.ok _ => Except.ok ()
     | Except.error e => Except.error e)

/-- Handle trace of `save_to_npy`: `open_memmap` opens the `.npy` file, and
the rebinding `npy_mm = numpy.require(npy_mm, ...)` drops the memmap and
closes the file before the loop runs — so the handle is released before the
function returns or raises. -/
def save_to_npy_handles (data : List MeasRecord) :
    List HandleEvent × Option String :=
  ([HandleEvent.openEv "npyfile", HandleEvent.closeEv "npyfile"],
   match saveLoop ndarrayResize emptyDS data with
   | Except.ok _ => none
   | Except.error e => some e)

/-- Handle trace of the DMM notebook: the setup cell opens the Keysight
34465A, the Agilent 34411A and the QDac; the final cell calls
`ks.close()`, `agi.close()`, `qdac.close()`. -/
def dmm_notebook_handles : List HandleEvent :=
  [HandleEvent.openEv "Keysight", HandleEvent.openEv "Agilent",
   HandleEvent.openEv "qdac",
   HandleEvent.closeEv "Keysight", HandleEvent.closeEv "Agilent",
   HandleEvent.closeEv "qdac"]

/-- Number of times the handle `nm` is opened in a trace. -/
def openCount (nm : String) : List HandleEvent → Nat
  | [] => 0
  | HandleEvent.openEv s :: rest => (if s = nm then 1 else 0) + openCount nm rest
  | HandleEvent.closeEv _ :: rest => openCount nm rest

/-- Number of times the handle `nm` is closed in a trace. -/
def closeCount (nm : String) : List HandleEvent → Nat
  | [] => 0
  | HandleEvent.closeEv s :: rest => (if s = nm then 1 else 0) + closeCount nm rest
  | HandleEvent.openEv _ :: rest => closeCount nm rest

/-- C7: every file handle or instrument connection a benchmark opens is
closed by the end of its run: `save_to_hdf5` closes its HDF5 file whether or
not the body raises, `save_to_npy` releases its file handle before
returning, and the DMM notebook closes all three instrument connections. -/
theorem claim_handles_closed (data : List MeasRecord) :
    (∀ nm, openCount nm (save_to_hdf5_handles data).1
      = closeCount nm (save_to_hdf5_handles data).1) ∧
    (∀ nm, openCount nm (save_to_npy_handles data).1
      = closeCount nm (save_to_npy_handles data).1) ∧
    (∀ nm, openCount nm dmm_notebook_handles
      = closeCount nm dmm_notebook_handles) := by
  exact ⟨fun nm => rfl, fun nm => rfl, fun nm => rfl⟩

/-! ### Report-folder layout -/

/-- Kind of a file in a report folder, by extension. -/
inductive FileKind where
  | rst : FileKind
  | md : FileKind
  | ipynb : FileKind
  | py : FileKind
deriving DecidableEq

/-- A file of the repository. -/
structure RepoFile where
  name : String
  kind : FileKind
deriving DecidableEq

/-- A leaf report folder `<vendor>/<report>/` or `<technology>/<report>/`
together with its files. -/
structure ReportFolder where
  path : String
  files : List RepoFile
deriving DecidableEq

/-- The leaf report folders of the repository and their contents. -/
def reportFolders : List ReportFolder :=
  [⟨"instruments/Tektronix/awg_waveform_wrap_when_triggered",
    [⟨"README.md", FileKind.md⟩, ⟨"report.rst", FileKind.rst⟩]⟩,
   ⟨"technologies/sqlite/comparison_with_hdf5_and_numpy_files",
    [⟨"Compare loading saving speed with numpy files.ipynb", FileKind.ipynb⟩]⟩]

/-- A report description file in `.rst` or `.md` format. -/
def isReportDescription (f : RepoFile) : Bool :=
  f.kind == FileKind.rst || f.kind == FileKind.md

/-- A script to regenerate the results (a notebook or Python script). -/
def isRegenScript (f : RepoFile) : Bool :=
  f.kind == FileKind.ipynb || f.kind == FileKind.py

/-- The folder holds a report description. -/
def hasReportDescription (d : ReportFolder) : Bool :=
  d.files.any isReportDescription

/-- The folder holds a regeneration script. -/
def hasRegenScript (d : ReportFolder) : Bool :=
  d.files.any isRegenScript

/-- C8: the repository violates its own documentation contract — the
`awg_waveform_wrap_when_triggered` report folder contains `.rst`/`.md`
descriptions but no script to regenerate the results, and conversely the
sqlite comparison folder contains only the regeneration notebook and no
`.rst`/`.md` description. -/
theorem claim_report_folder_contract_violated :
    (⟨"instruments/Tektronix/awg_waveform_wrap_when_triggered",
      [⟨"README.md", FileKind.md⟩, ⟨"report.rst", FileKind.rst⟩]⟩ :
      ReportFolder) ∈ reportFolders ∧
    hasReportDescription
      ⟨"instruments/Tektronix/awg_waveform_wrap_when_triggered",
        [⟨"README.md", FileKind.md⟩, ⟨"report.rst", FileKind.rst⟩]⟩ = true ∧
    hasRegenScript
      ⟨"instruments/Tektronix/awg_waveform_wrap_when_triggered",
        [⟨"README.md", FileKind.md⟩, ⟨"report.rst", FileKind.rst⟩]⟩ = false ∧
    ¬ (∀ d ∈ reportFolders,
      hasReportDescription d = true ∧ hasRegenScript d = true) := by decide

/-- C10: for every input on which they return, `save_to_hdf5` and
`save_to_npy` return `None` — their docstrings announce a `saving_time`
return value but neither body contains a `return` statement — while
`save_to_sqlite` returns the pair `(saving_time, dataset)`. -/
theorem claim_save_return_values (data : List MeasRecord) (t0 t1 : ℚ) :
    (∀ a ret, save_to_hdf5 data = Except.ok (a, ret) → ret = SaveReturn.noneVal) ∧
    (∀ o, save_to_npy data = Except.ok o → o.ret = SaveReturn.noneVal) ∧
    save_to_sqlite data t0 t1 = SaveReturn.timeAndDataset (t1 - t0) data ∧
    save_to_sqlite data t0 t1 ≠ SaveReturn.noneVal := by
  refine ⟨?_, ?_, rfl, by simp [save_to_sqlite]⟩
  · intro a ret h
    unfold save_to_hdf5 at h
    cases hs : saveLoop h5pyResize emptyDS data with
    | error e => rw [hs] at h; exact absurd h (by simp)
    | ok b =>
      rw [hs] at h
      have := Except.ok.inj h
      exact (Prod.mk.injEq .. ▸ this).2.symm
  · intro o h
    rw [save_to_npy_spec data] at h
    cases hs : saveLoop ndarrayResize emptyDS data with
    | error e => rw [hs] at h; exact absurd h (by simp)
    | ok b =>
      rw [hs] at h
      have := Except.ok.inj h
      rw [← this]

/-- Witness for C10 at the empty generator output and clock readings 0, 1. -/
theorem claim_save_return_values_witness :
    (∀ a ret, save_to_hdf5 [] = Except.ok (a, ret) → ret = SaveReturn.noneVal) ∧
    (∀ o, save_to_npy [] = Except.ok o → o.ret = SaveReturn.noneVal) ∧
    save_to_sqlite [] 0 1 = SaveReturn.timeAndDataset (1 - 0) [] ∧
    save_to_sqlite [] 0 1 ≠ SaveReturn.noneVal :=
  claim_save_return_values [] 0 1

end Reports
